import Mathlib

/-
Shallow embedding of src/include/sdsl/memory_management.hpp:
the memory_monitor usage profiler, the hugepage_allocator ownership test and
initialization, and the memory_manager vector resize/clear contract.

Machine integers (uint64_t sizes) are modelled as Nat with an explicit
% 2^64 where the C arithmetic can wrap.  Raw 64-bit words of a vector's
storage are modelled as a List Nat (one Nat per uint64 word); the platform
realloc is modelled as preserving the common prefix of words and filling
freshly exposed words from an arbitrary "garbage" oracle, exactly as a
C realloc leaves the grown region unspecified.  Time stamps of the
high-resolution clock are modelled as abstract Nat ticks.
-/

namespace SdslMM

/-! ## memory_monitor (the usage profiler) -/

/-- One (timestamp, cumulative usage) sample; `memory_monitor::mm_alloc`. -/
structure MMAlloc where
  timestamp : Nat
  usage : Int
deriving DecidableEq, Repr

/-- A named event with its ordered samples; `memory_monitor::mm_event`.
The C++ constructor seeds `allocations` with one sample at creation time. -/
structure MMEvent where
  name : String
  allocations : List MMAlloc
deriving DecidableEq, Repr

/-- The whole singleton monitor state.  `event_stack` is the `std::stack`
with the head of the list as the top of the stack. -/
structure Monitor where
  log_granularity : Nat
  current_usage : Int
  track_usage : Bool
  completed_events : List MMEvent
  event_stack : List MMEvent
  start_log : Nat
  last_event : Nat
deriving DecidableEq, Repr

/-- The freshly constructed monitor: `log_granularity = 20ms`, zero usage,
tracking off, no events, default (epoch) time points. -/
def initMonitor : Monitor :=
  { log_granularity := 20, current_usage := 0, track_usage := false,
    completed_events := [], event_stack := [], start_log := 0, last_event := 0 }

/-- `memory_monitor::peak()`: maximum usage over all samples of all completed
events, starting from `max = 0`. -/
def peak (m : Monitor) : Int :=
  m.completed_events.foldl
    (fun mx ev => ev.allocations.foldl
      (fun mx2 a => if mx2 < a.usage then a.usage else mx2) mx) 0

/-- `memory_monitor::start()` at clock time `now`: reset everything and push
the sentinel root event named "unknown" seeded with usage 0. -/
def start (m : Monitor) (now : Nat) : Monitor :=
  { m with
    track_usage := true,
    completed_events := [],
    start_log := now,
    current_usage := 0,
    last_event := now,
    event_stack := [⟨"unknown", [⟨now, 0⟩]⟩] }

/-- `memory_monitor::stop()`: drain the event stack (top first) into
`completed_events` and turn tracking off. -/
def stop (m : Monitor) : Monitor :=
  { m with
    completed_events := m.completed_events ++ m.event_stack,
    event_stack := [],
    track_usage := false }

/-- The `mm_event_proxy` constructor with `add = true`: push a new event
seeded with the given usage at clock time `now`. -/
def push_event (m : Monitor) (name : String) (usage : Int) (now : Nat) : Monitor :=
  { m with event_stack := ⟨name, [⟨now, usage⟩]⟩ :: m.event_stack }

/-- `memory_monitor::event(name)` at clock time `now`: if tracking, the
returned proxy pushes an event seeded with the current usage; otherwise the
proxy does nothing. -/
def eventOp (m : Monitor) (name : String) (now : Nat) : Monitor :=
  if m.track_usage then push_event m name m.current_usage now else m

/-- The `mm_event_proxy` destructor with `add = true` at clock time
`cur_time`: append a final sample at the current usage to the top event,
move it to `completed_events`, pop it, and, if the stack is still non-empty
and the new top has at least one sample, append a synthetic sample to the
new top carrying the new top's own last sample's usage at `cur_time`.
The C++ calls `top()` on the stack unconditionally; with an empty stack that
is undefined behaviour, modelled here as leaving the state unchanged. -/
def pop_event (m : Monitor) (cur_time : Nat) : Monitor :=
  match m.event_stack with
  | [] => m
  | cur :: rest =>
    let finished : MMEvent :=
      { cur with allocations := cur.allocations ++ [⟨cur_time, m.current_usage⟩] }
    let completed := m.completed_events ++ [finished]
    match rest with
    | [] => { m with completed_events := completed, event_stack := [] }
    | t2 :: rest2 =>
      match t2.allocations.getLast? with
      | some lastA =>
        { m with
          completed_events := completed,
          event_stack :=
            { t2 with allocations := t2.allocations ++ [⟨cur_time, lastA.usage⟩] } :: rest2 }
      | none => { m with completed_events := completed, event_stack := t2 :: rest2 }

/-- `memory_monitor::record(delta)` at clock time `cur`.  When tracking:
if strictly more than `log_granularity` has passed since `last_event`, append
a pre-delta and a post-delta sample to the top event and advance `last_event`;
otherwise, if the top event has a sample, overwrite its last sample in place
with the post-delta usage and the current time (without touching
`last_event`).  `top()` on an empty stack is undefined behaviour in the C++,
modelled here as leaving the state unchanged. -/
def record (m : Monitor) (delta : Int) (cur : Nat) : Monitor :=
  if m.track_usage then
    match m.event_stack with
    | [] => m
    | top :: rest =>
      if m.last_event + m.log_granularity < cur then
        { m with
          event_stack :=
            { top with allocations :=
                top.allocations ++ [⟨cur, m.current_usage⟩, ⟨cur, m.current_usage + delta⟩] } :: rest,
          current_usage := m.current_usage + delta,
          last_event := cur }
      else
        if top.allocations = [] then m
        else
          { m with
            event_stack :=
              { top with allocations :=
                  top.allocations.dropLast ++ [⟨cur, m.current_usage + delta⟩] } :: rest,
            current_usage := m.current_usage + delta }
  else m

/-- One profiler interaction while tracking: a scoped-event acquisition
(`memory_monitor::event`), a scoped-event release (proxy destructor), or
a `record(delta)` call, each with its clock time. -/
inductive ProfilerOp where
  | push : String → Nat → ProfilerOp
  | pop : Nat → ProfilerOp
  | note : Int → Nat → ProfilerOp
deriving DecidableEq, Repr

/-- Apply one profiler interaction to the monitor. -/
def applyOp (m : Monitor) : ProfilerOp → Monitor
  | .push name now => eventOp m name now
  | .pop now => pop_event m now
  | .note delta now => record m delta now

/-- Run a sequence of profiler interactions, oldest first. -/
def runOps (m : Monitor) : List ProfilerOp → Monitor
  | [] => m
  | op :: rest => runOps (applyOp m op) rest

/-- `balanced d ops` holds when, starting with `d` open (pushed, not yet
popped) scoped events above the sentinel, every pop in `ops` releases an
event previously pushed in `ops` or one of the `d` open ones — i.e. pops
never outnumber the available pushes.  This is exactly the shape of
push/pop sequences C++ scoped proxies can produce above the sentinel. -/
def balanced : Nat → List ProfilerOp → Bool
  | _, [] => true
  | d, .push _ _ :: rest => balanced (d + 1) rest
  | d, .note _ _ :: rest => balanced d rest
  | 0, .pop _ :: _ => false
  | d + 1, .pop _ :: rest => balanced d rest

/-- The name of the bottom element of the event stack, if any. -/
def stackBottomName (l : List MMEvent) : Option String :=
  l.getLast?.map MMEvent.name

/-! ## hugepage_allocator -/

/-- `hugepage_allocator::in_address_space(ptr)`.  Pointers are modelled as
`Option Nat` addresses with `none` for `nullptr`; `base`/`top` are the
allocator's `m_base`/`m_top` addresses. -/
def in_address_space (base top : Nat) (ptr : Option Nat) : Bool :=
  match ptr with
  | none => true
  | some p => decide (base ≤ p) && decide (p < top)

/-- The error taxonomy relevant here: both `std::system_error(ENOMEM, ...)`
and `std::bad_alloc` surface an out-of-memory condition. -/
inductive AllocError where
  | outOfMemory
deriving DecidableEq, Repr

/-- The fields of `hugepage_allocator` set by `init`. -/
structure HugepageState where
  m_base : Option Nat
  m_first_block : Option Nat
  m_top : Option Nat
  m_total_size : Nat
deriving DecidableEq, Repr

/-- `hugepage_allocator::init(size_in_bytes)`.  `available` stands for
`determine_available_hugepage_memory()` (declared but not defined under
src/; the spec says init probes the OS for currently available hugepage
capacity when the requested size is zero).  `osResponses` is the stream of
answers of the OS `mmap` primitive, `none` meaning `MAP_FAILED`; the second
component of the result counts how many OS mapping requests were issued.
On `MAP_FAILED` the C++ throws `std::system_error(ENOMEM, ...)`, modelled
as the error result (the assignment of `m_total_size` made before the
mapping call is part of the thrown-away singleton state). -/
def hugepage_init (a : HugepageState) (size_in_bytes : Nat) (available : Nat)
    (osResponses : List (Option Nat)) : Except AllocError HugepageState × Nat :=
  let sz := if size_in_bytes = 0 then available else size_in_bytes
  match osResponses.headD none with
  | none => (Except.error AllocError.outOfMemory, 1)
  | some base =>
    (Except.ok
      { a with
        m_total_size := sz,
        m_base := some base,
        m_top := some base,
        m_first_block := some base }, 1)

/-- Outcome of a `memory_manager::realloc_mem` call: the result (or the
thrown out-of-memory error) together with whether the original block was
released by the call. -/
structure ReallocOutcome where
  result : Except AllocError (Option Nat)
  originalFreed : Bool
deriving Repr

/-- `memory_manager::realloc_mem(ptr, size)`.  When `hugepages` is enabled
and the pointer is in the hugepage address space the call delegates to
`hugepage_allocator::mm_realloc`, which is declared but not defined under
src/, so its outcome is passed in as `mm_outcome`.  Otherwise the platform
`realloc` is consulted: `platform_result = none` models a null return, on
which the C++ throws `std::bad_alloc` without having freed the original
block (the C `realloc` contract keeps the original block valid on failure);
a non-null return hands the (possibly moved) block back, the original
allocation having been absorbed when `ptr` was non-null. -/
def realloc_mem (hugepages : Bool) (in_space : Bool) (mm_outcome : ReallocOutcome)
    (ptr : Option Nat) (platform_result : Option Nat) : ReallocOutcome :=
  if hugepages && in_space then mm_outcome
  else
    match platform_result with
    | none => ⟨Except.error AllocError.outOfMemory, false⟩
    | some temp => ⟨Except.ok (some temp), ptr.isSome⟩

/-! ## memory_manager::resize / clear (the typed-vector contract) -/

/-- The byte-capacity formula `((bits + 63) >> 6) << 3` on uint64, used for
both `old_size_in_bytes` and `new_size_in_bytes` in `resize` and for
`size_in_bytes` in `clear`. -/
def roundBytes (bits : Nat) : Nat :=
  (((bits + 63) % 2 ^ 64) >>> 6) <<< 3

/-- Modelled from the spec: `int_vector::capacity()` is not under src/ (only
its caller `resize` is); the spec says capacities round the bit-length up to
the next 64-bit-word boundary, matching `((m_size + 63) >> 6) << 6` bits. -/
def capacity (m_size : Nat) : Nat :=
  (((m_size + 63) % 2 ^ 64) >>> 6) <<< 6

/-- Modelled from the spec: `bits::write_int(word, 0, offset, len)` is not
under src/; the spec says `resize` zero-fills the padding bits, i.e. it
clears bits `offset ≤ b < offset + len` of the 64-bit word and keeps the
rest. -/
def write_int_zero (w offset len : Nat) : Nat :=
  w &&& (((2 ^ len - 1) <<< offset) ^^^ (2 ^ 64 - 1))

/-- The typed vector surface `resize`/`clear` operate on: a logical
bit-length `m_size` and a raw word buffer `m_data` (`none` = `nullptr`). -/
structure IntVec where
  m_size : Nat
  m_data : Option (List Nat)
deriving DecidableEq, Repr

/-- The platform `realloc` on a word buffer: the first `min` words are
preserved, any freshly exposed words hold unspecified garbage `g i`.
(`realloc(nullptr, n)` corresponds to `old = []`.)  The platform call is
modelled as succeeding; the failure path of `realloc_mem` is modelled
separately above. -/
def reallocWords (old : List Nat) (newLen : Nat) (g : Nat → Nat) : List Nat :=
  (List.range newLen).map (fun i => old.getD i (g i))

/-- The first zero-fill step of `resize`: if the new bit-length is below the
word-rounded capacity, clear the bits from the in-word offset
`m_size & 0x3F` for `uint8_t(capacity - bit_size)` bits in word
`m_size >> 6`. -/
def zeroFillStep1 (data : List Nat) (m_size : Nat) : List Nat :=
  if m_size < capacity m_size then
    let wi := m_size >>> 6
    let off := m_size &&& 63
    let len := (capacity m_size - m_size) % 256
    data.set wi (write_int_zero (data.getD wi 0) off len)
  else data

/-- The second zero-fill step of `resize`: when the new bit-length is an
exact multiple of 64, the word `m_data[m_size / 64]` (the extra reserved
padding word) is set to zero. -/
def zeroFillStep2 (data : List Nat) (m_size : Nat) : List Nat :=
  if m_size % 64 = 0 then data.set (m_size / 64) 0 else data

/-- Result of one `memory_manager::resize` call: the new vector, whether the
reallocation branch ran (`realloc_mem` was called), and the delta handed to
`memory_monitor::record` (`none` when `record` was not called). -/
structure ResizeResult where
  v : IntVec
  reallocCalled : Bool
  recorded : Option Int
deriving DecidableEq, Repr

/-- `memory_manager::resize(v, size)` with garbage oracle `g` for the
unspecified content of freshly exposed words.  Follows the C++ line by
line: compute the old and new byte capacities, set `m_size`, and when the
capacity changed or the buffer is null, reallocate
`((size + 64) >> 6) << 3` bytes, zero-fill the padding, and (only when the
capacity changed) record the signed byte delta. -/
def resize (v : IntVec) (size : Nat) (g : Nat → Nat) : ResizeResult :=
  let old_size_in_bytes := roundBytes v.m_size
  let new_size_in_bytes := roundBytes size
  let do_realloc := old_size_in_bytes ≠ new_size_in_bytes
  if do_realloc ∨ v.m_data = none then
    let allocated_bytes := (((size + 64) % 2 ^ 64) >>> 6) <<< 3
    let data1 := reallocWords (v.m_data.getD []) (allocated_bytes / 8) g
    let data2 := zeroFillStep2 (zeroFillStep1 data1 size) size
    { v := { m_size := size, m_data := some data2 },
      reallocCalled := true,
      recorded :=
        if do_realloc then
          some ((new_size_in_bytes : Int) - (old_size_in_bytes : Int))
        else none }
  else
    { v := { v with m_size := size }, reallocCalled := false, recorded := none }

/-- `memory_manager::clear(v)`: free the buffer, null the data pointer, and
report `-size_in_bytes` to the profiler when `size_in_bytes` is non-zero.
The second component is the delta handed to `memory_monitor::record`
(`none` when `record` was not called); `m_size` is not touched. -/
def clear (v : IntVec) : IntVec × Option Int :=
  let size_in_bytes : Int := (roundBytes v.m_size : Nat)
  ({ v with m_data := none },
   if size_in_bytes ≠ 0 then some (size_in_bytes * (-1)) else none)

/-- Bit `j` of a word buffer: bit `j % 64` of word `j / 64`. -/
def bitAt (data : List Nat) (j : Nat) : Bool :=
  Nat.testBit (data.getD (j / 64) 0) (j % 64)

/-! ## Concrete states used to exercise the operations -/

/-- A tracking monitor in the middle of the spec's nested-scope scenario:
event "B" (last sample usage 1500) is open on top of event "A" (last sample
usage 1000), and the cumulative usage is 1500. -/
def c2state : Monitor :=
  { log_granularity := 20, current_usage := 1500, track_usage := true,
    completed_events := [],
    event_stack := [⟨"B", [⟨3, 1500⟩]⟩, ⟨"A", [⟨1, 1000⟩]⟩],
    start_log := 0, last_event := 3 }

/-- A tracking monitor fresh after `start` at time 0 (granularity 20):
one sentinel event with one sample, `last_event = 0`. -/
def c5state : Monitor :=
  { log_granularity := 20, current_usage := 0, track_usage := true,
    completed_events := [],
    event_stack := [⟨"unknown", [⟨0, 0⟩]⟩],
    start_log := 0, last_event := 0 }

/-! ## Supporting lemmas -/

theorem shiftRight6_eq (n : Nat) : n >>> 6 = n / 64 := by
  rw [Nat.shiftRight_eq_div_pow]

theorem shiftLeft3_eq (n : Nat) : n <<< 3 = n * 8 := by
  rw [Nat.shiftLeft_eq]

theorem shiftLeft6_eq (n : Nat) : n <<< 6 = n * 64 := by
  rw [Nat.shiftLeft_eq]

theorem roundBytes_eq (L : Nat) (h : L + 63 < 2 ^ 64) :
    roundBytes L = ((L + 63) / 64) * 8 := by
  unfold roundBytes
  rw [Nat.mod_eq_of_lt h, shiftRight6_eq, shiftLeft3_eq]

theorem capacity_eq (L : Nat) (h : L + 63 < 2 ^ 64) :
    capacity L = ((L + 63) / 64) * 64 := by
  unfold capacity
  rw [Nat.mod_eq_of_lt h, shiftRight6_eq, shiftLeft6_eq]

theorem roundBytes_zero : roundBytes 0 = 0 := by decide

theorem land63_eq_mod (n : Nat) : n &&& 63 = n % 64 := by
  apply Nat.eq_of_testBit_eq
  intro i
  rw [Nat.testBit_land]
  have h64 : (64 : Nat) = 2 ^ 6 := by norm_num
  have h63 : (63 : Nat) = 2 ^ 6 - 1 := by norm_num
  rw [h64, Nat.testBit_mod_two_pow, h63, Nat.testBit_two_pow_sub_one]
  exact Bool.and_comm _ _

theorem testBit_write_int_zero (w offset len s : Nat) (h1 : offset ≤ s)
    (h2 : s < offset + len) (h3 : offset + len ≤ 64) :
    (write_int_zero w offset len).testBit s = false := by
  unfold write_int_zero
  rw [Nat.testBit_land, Nat.testBit_xor, Nat.testBit_shiftLeft,
      Nat.testBit_two_pow_sub_one, Nat.testBit_two_pow_sub_one]
  have hlt : s - offset < len := by omega
  have hlt64 : s < 64 := by omega
  simp [h1, hlt, hlt64]

theorem length_reallocWords (old : List Nat) (n : Nat) (g : Nat → Nat) :
    (reallocWords old n g).length = n := by
  simp [reallocWords]

theorem length_zeroFillStep1 (d : List Nat) (L : Nat) :
    (zeroFillStep1 d L).length = d.length := by
  unfold zeroFillStep1; split <;> simp

theorem length_zeroFillStep2 (d : List Nat) (L : Nat) :
    (zeroFillStep2 d L).length = d.length := by
  unfold zeroFillStep2; split <;> simp

theorem getD_set_self (l : List Nat) (i w : Nat) (h : i < l.length) :
    (l.set i w).getD i 0 = w := by
  rw [List.getD_eq_getElem?_getD, List.getElem?_set_self h]
  rfl

theorem resize_m_size (v : IntVec) (L : Nat) (g : Nat → Nat) :
    (resize v L g).v.m_size = L := by
  unfold resize
  dsimp only
  split <;> rfl

theorem resize_m_data_ne_none (v : IntVec) (L : Nat) (g : Nat → Nat) :
    (resize v L g).v.m_data ≠ none := by
  unfold resize
  dsimp only
  split
  · intro h; cases h
  · rename_i h
    push_neg at h
    exact h.2

theorem resize_data_of_branch (v : IntVec) (L : Nat) (g : Nat → Nat)
    (hb : roundBytes v.m_size ≠ roundBytes L ∨ v.m_data = none) :
    (resize v L g).v.m_data =
      some (zeroFillStep2
        (zeroFillStep1
          (reallocWords (v.m_data.getD [])
            (((((L + 64) % 2 ^ 64) >>> 6) <<< 3) / 8) g) L) L) := by
  unfold resize
  dsimp only
  rw [if_pos hb]

theorem allocWords_eq (L : Nat) (hL : L + 64 < 2 ^ 64) :
    ((((L + 64) % 2 ^ 64) >>> 6) <<< 3) / 8 = L / 64 + 1 := by
  rw [Nat.mod_eq_of_lt hL, shiftRight6_eq, shiftLeft3_eq]
  omega

theorem resize_of_not_branch (v : IntVec) (L : Nat) (g : Nat → Nat)
    (h : ¬ (roundBytes v.m_size ≠ roundBytes L ∨ v.m_data = none)) :
    resize v L g =
      { v := { v with m_size := L }, reallocCalled := false, recorded := none } := by
  unfold resize
  dsimp only
  rw [if_neg h]

theorem IntVec.set_size_eta (X : IntVec) (L : Nat) (h : X.m_size = L) :
    { X with m_size := L } = X := by
  cases X
  subst h
  rfl

theorem zeroFill_padding_bits (data1 : List Nat) (L : Nat)
    (hlen : data1.length = L / 64 + 1) (hL : L + 64 < 2 ^ 64) :
    ∀ j, L ≤ j → j < (L / 64 + 1) * 64 →
      bitAt (zeroFillStep2 (zeroFillStep1 data1 L) L) j = false := by
  intro j hj1 hj2
  have hcap : capacity L = ((L + 63) / 64) * 64 := capacity_eq L (by omega)
  have hjw : j / 64 = L / 64 := by omega
  by_cases hr : L % 64 = 0
  · have hnc : ¬ (L < capacity L) := by rw [hcap]; omega
    have hstep1 : zeroFillStep1 data1 L = data1 := by
      unfold zeroFillStep1
      rw [if_neg hnc]
    have hstep2 : zeroFillStep2 data1 L = data1.set (L / 64) 0 := by
      unfold zeroFillStep2
      rw [if_pos hr]
    rw [hstep1, hstep2]
    unfold bitAt
    rw [hjw, getD_set_self]
    · exact Nat.zero_testBit _
    · omega
  · have hlt : L < capacity L := by rw [hcap]; omega
    have hwi : L >>> 6 = L / 64 := shiftRight6_eq L
    have hoff : L &&& 63 = L % 64 := land63_eq_mod L
    have hlen2 : (capacity L - L) % 256 = 64 - L % 64 := by rw [hcap]; omega
    have hstep1 : zeroFillStep1 data1 L =
        data1.set (L / 64)
          (write_int_zero (data1.getD (L / 64) 0) (L % 64) (64 - L % 64)) := by
      unfold zeroFillStep1
      dsimp only
      rw [if_pos hlt, hwi, hoff, hlen2]
    have hstep2 : zeroFillStep2 (zeroFillStep1 data1 L) L = zeroFillStep1 data1 L := by
      unfold zeroFillStep2
      rw [if_neg hr]
    rw [hstep2, hstep1]
    unfold bitAt
    rw [hjw, getD_set_self]
    · apply testBit_write_int_zero
      · omega
      · omega
      · omega
    · omega

theorem record_eq_append (m : Monitor) (delta : Int) (cur : Nat)
    (top : MMEvent) (rest : List MMEvent)
    (ht : m.track_usage = true) (hs : m.event_stack = top :: rest)
    (h1 : m.last_event + m.log_granularity < cur) :
    record m delta cur =
      { m with
        event_stack :=
          { top with allocations :=
              top.allocations ++
                [⟨cur, m.current_usage⟩, ⟨cur, m.current_usage + delta⟩] } :: rest,
        current_usage := m.current_usage + delta,
        last_event := cur } := by
  unfold record
  rw [ht, hs]
  dsimp only
  rw [if_pos h1]
  rfl

theorem record_eq_overwrite (m : Monitor) (delta : Int) (cur : Nat)
    (top : MMEvent) (rest : List MMEvent)
    (ht : m.track_usage = true) (hs : m.event_stack = top :: rest)
    (h1 : ¬ (m.last_event + m.log_granularity < cur))
    (hne : top.allocations ≠ []) :
    record m delta cur =
      { m with
        event_stack :=
          { top with allocations :=
              top.allocations.dropLast ++ [⟨cur, m.current_usage + delta⟩] } :: rest,
        current_usage := m.current_usage + delta } := by
  unfold record
  rw [ht, hs]
  dsimp only
  rw [if_neg h1, if_neg hne]
  rfl

theorem record_eq_skip (m : Monitor) (delta : Int) (cur : Nat)
    (top : MMEvent) (rest : List MMEvent)
    (ht : m.track_usage = true) (hs : m.event_stack = top :: rest)
    (h1 : ¬ (m.last_event + m.log_granularity < cur))
    (he : top.allocations = []) :
    record m delta cur = m := by
  unfold record
  rw [ht, hs]
  dsimp only
  rw [if_neg h1, if_pos he]
  rfl

theorem pop_event_eq_some (m : Monitor) (t : Nat) (c t2 : MMEvent)
    (rest : List MMEvent) (lastA : MMAlloc)
    (hs : m.event_stack = c :: t2 :: rest)
    (hl : t2.allocations.getLast? = some lastA) :
    pop_event m t =
      { m with
        completed_events := m.completed_events ++
          [{ c with allocations := c.allocations ++ [⟨t, m.current_usage⟩] }],
        event_stack :=
          { t2 with allocations := t2.allocations ++ [⟨t, lastA.usage⟩] } :: rest } := by
  unfold pop_event
  rw [hs]
  simp [hl]

theorem pop_event_eq_none_alloc (m : Monitor) (t : Nat) (c t2 : MMEvent)
    (rest : List MMEvent)
    (hs : m.event_stack = c :: t2 :: rest)
    (hl : t2.allocations.getLast? = none) :
    pop_event m t =
      { m with
        completed_events := m.completed_events ++
          [{ c with allocations := c.allocations ++ [⟨t, m.current_usage⟩] }],
        event_stack := t2 :: rest } := by
  unfold pop_event
  rw [hs]
  simp [hl]

theorem eventOp_tracking (m : Monitor) (name : String) (now : Nat)
    (h : m.track_usage = true) :
    eventOp m name now =
      { m with event_stack := ⟨name, [⟨now, m.current_usage⟩]⟩ :: m.event_stack } := by
  unfold eventOp push_event
  rw [h]
  rfl

theorem record_stack_shape (m : Monitor) (delta : Int) (cur : Nat)
    (top : MMEvent) (rest : List MMEvent)
    (ht : m.track_usage = true) (hs : m.event_stack = top :: rest) :
    ∃ top2 : MMEvent, top2.name = top.name ∧
      (record m delta cur).event_stack = top2 :: rest ∧
      (record m delta cur).track_usage = true := by
  by_cases h1 : m.last_event + m.log_granularity < cur
  · rw [record_eq_append m delta cur top rest ht hs h1]
    exact ⟨⟨top.name, top.allocations ++
      [⟨cur, m.current_usage⟩, ⟨cur, m.current_usage + delta⟩]⟩, rfl, rfl, ht⟩
  · by_cases he : top.allocations = []
    · rw [record_eq_skip m delta cur top rest ht hs h1 he]
      exact ⟨top, rfl, hs, ht⟩
    · rw [record_eq_overwrite m delta cur top rest ht hs h1 he]
      exact ⟨⟨top.name, top.allocations.dropLast ++
        [⟨cur, m.current_usage + delta⟩]⟩, rfl, rfl, ht⟩

theorem pop_event_stack_shape (m : Monitor) (now : Nat) (a b : MMEvent)
    (t : List MMEvent) (hs : m.event_stack = a :: b :: t) :
    ∃ b2 : MMEvent, b2.name = b.name ∧
      (pop_event m now).event_stack = b2 :: t ∧
      (pop_event m now).track_usage = m.track_usage := by
  cases hl : b.allocations.getLast? with
  | some lastA =>
    rw [pop_event_eq_some m now a b t lastA hs hl]
    exact ⟨⟨b.name, b.allocations ++ [⟨now, lastA.usage⟩]⟩, rfl, rfl, rfl⟩
  | none =>
    rw [pop_event_eq_none_alloc m now a b t hs hl]
    exact ⟨b, rfl, rfl, rfl⟩

theorem stackBottomName_cons_cons (a b : MMEvent) (l : List MMEvent) :
    stackBottomName (a :: b :: l) = stackBottomName (b :: l) := by
  simp [stackBottomName, List.getLast?_cons_cons]

theorem stackBottomName_head_name (a b : MMEvent) (l : List MMEvent)
    (h : a.name = b.name) :
    stackBottomName (a :: l) = stackBottomName (b :: l) := by
  cases l with
  | nil => simp [stackBottomName, List.getLast?, h]
  | cons c tl => rw [stackBottomName_cons_cons, stackBottomName_cons_cons]

theorem runOps_keeps_sentinel (ops : List ProfilerOp) :
    ∀ (d : Nat) (m : Monitor), m.track_usage = true →
      m.event_stack.length = d + 1 → balanced d ops = true →
      (runOps m ops).track_usage = true ∧
      (runOps m ops).event_stack ≠ [] ∧
      stackBottomName (runOps m ops).event_stack = stackBottomName m.event_stack := by
  induction ops with
  | nil =>
    intro d m h1 h2 _
    refine ⟨h1, ?_, rfl⟩
    intro hnil
    have hh : m.event_stack = [] := hnil
    rw [hh] at h2
    simp at h2
  | cons op rest ih =>
    intro d m h1 h2 h3
    cases op with
    | push name now =>
      have happ : applyOp m (.push name now) =
          { m with event_stack := ⟨name, [⟨now, m.current_usage⟩]⟩ :: m.event_stack } :=
        eventOp_tracking m name now h1
      have hrun : runOps m (.push name now :: rest) = runOps (applyOp m (.push name now)) rest := rfl
      have hb : balanced (d + 1) rest = true := by simpa [balanced] using h3
      obtain ⟨ta, tb, tc⟩ := ih (d + 1) (applyOp m (.push name now))
        (by rw [happ]; exact h1) (by rw [happ]; simp [h2]) hb
      refine ⟨by rw [hrun]; exact ta, by rw [hrun]; exact tb, ?_⟩
      rw [hrun, tc, happ]
      obtain ⟨e, es, hes⟩ : ∃ e es, m.event_stack = e :: es := by
        cases hstk : m.event_stack with
        | nil => rw [hstk] at h2; simp at h2
        | cons e es => exact ⟨e, es, rfl⟩
      rw [hes]
      exact stackBottomName_cons_cons _ e es
    | pop now =>
      cases d with
      | zero => simp [balanced] at h3
      | succ d' =>
        obtain ⟨a, b, t, hstk⟩ : ∃ a b t, m.event_stack = a :: b :: t := by
          cases hstk : m.event_stack with
          | nil => rw [hstk] at h2; simp at h2
          | cons a r =>
            cases r with
            | nil => rw [hstk] at h2; simp at h2
            | cons b t => exact ⟨a, b, t, rfl⟩
        obtain ⟨b2, hbname, hstack, htrack⟩ := pop_event_stack_shape m now a b t hstk
        have hrun : runOps m (.pop now :: rest) = runOps (pop_event m now) rest := rfl
        have hb : balanced d' rest = true := by simpa [balanced] using h3
        have hlen : (pop_event m now).event_stack.length = d' + 1 := by
          rw [hstack]
          rw [hstk] at h2
          simp at h2 ⊢
          omega
        obtain ⟨ta, tb, tc⟩ := ih d' (pop_event m now) (by rw [htrack]; exact h1) hlen hb
        refine ⟨by rw [hrun]; exact ta, by rw [hrun]; exact tb, ?_⟩
        rw [hrun, tc, hstack, hstk]
        rw [stackBottomName_head_name b2 b t hbname]
        exact (stackBottomName_cons_cons a b t).symm
    | note delta now =>
      obtain ⟨top, rest2, hstk⟩ : ∃ top rest2, m.event_stack = top :: rest2 := by
        cases hstk : m.event_stack with
        | nil => rw [hstk] at h2; simp at h2
        | cons top rest2 => exact ⟨top, rest2, rfl⟩
      obtain ⟨top2, htname, hstack, htrack⟩ :=
        record_stack_shape m delta now top rest2 h1 hstk
      have hrun : runOps m (.note delta now :: rest) = runOps (record m delta now) rest := rfl
      have hb : balanced d rest = true := by simpa [balanced] using h3
      have hlen : (record m delta now).event_stack.length = d + 1 := by
        rw [hstack]
        rw [hstk] at h2
        simpa using h2
      obtain ⟨ta, tb, tc⟩ := ih d (record m delta now) htrack hlen hb
      refine ⟨by rw [hrun]; exact ta, by rw [hrun]; exact tb, ?_⟩
      rw [hrun, tc, hstack, hstk]
      exact stackBottomName_head_name top2 top rest2 htname

/-! ## Claims -/

/-- C7: `hugepage_allocator::in_address_space(ptr)` returns true iff `ptr`
is the null pointer or lies in the half-open arena range `[base, top)`; in
particular it is true for null and false for any non-null pointer outside
the arena. -/
theorem C7_in_address_space_iff (base top : Nat) (ptr : Option Nat) :
    in_address_space base top ptr = true ↔
      (ptr = none ∨ ∃ p, ptr = some p ∧ base ≤ p ∧ p < top) := by
  cases ptr with
  | none => simp [in_address_space]
  | some p => simp [in_address_space]

/-- C9: `memory_monitor::peak()` returns 0 whenever no completed events have
been recorded, in particular before any `start()`/`stop()` cycle has run. -/
theorem C9_peak_of_no_completed_events (m : Monitor)
    (h : m.completed_events = []) : peak m = 0 := by
  simp [peak, h]

theorem C9_peak_of_no_completed_events_witness :
    initMonitor.completed_events = [] ∧ peak initMonitor = 0 :=
  ⟨rfl, C9_peak_of_no_completed_events initMonitor rfl⟩

/-- C10: `memory_manager::clear(v)` leaves the logical bit-length `m_size`
unchanged while nulling the data pointer, so after clear the vector reports
the old bit-length with no backing storage. -/
theorem C10_clear_frame (v : IntVec) :
    (clear v).1.m_size = v.m_size ∧ (clear v).1.m_data = none :=
  ⟨rfl, rfl⟩

/-- C1 (counterexample): for the vector with bit-length 64 and two stored
words, `clear` followed by `resize(v, 0)` leaves the data pointer non-null
(one reserved 8-byte word, zeroed) and the resize reports a usage delta of
`-8` — contradicting the claim that storage is left null and no delta is
reported. -/
theorem C1_counterexample :
    (resize (clear ⟨64, some [5, 7]⟩).1 0 (fun _ => 99)).v.m_data ≠ none ∧
    (resize (clear ⟨64, some [5, 7]⟩).1 0 (fun _ => 99)).recorded ≠ none ∧
    (resize (clear ⟨64, some [5, 7]⟩).1 0 (fun _ => 99)).v.m_data = some [0] ∧
    (resize (clear ⟨64, some [5, 7]⟩).1 0 (fun _ => 99)).recorded = some (-8) := by
  decide

/-- C1 (amended): for every vector `v`, `clear(v)` followed by
`resize(v, 0)` always reallocates, leaving the logical size 0 and the
storage pointer non-null — a single zeroed 8-byte padding word — and the
resize reports a usage delta of minus the old rounded byte capacity when
that capacity is non-zero, and no delta when it is zero. -/
theorem C1_clear_then_resize_zero (v : IntVec) (g : Nat → Nat) :
    (resize (clear v).1 0 g).v.m_data = some [0] ∧
    (resize (clear v).1 0 g).v.m_size = 0 ∧
    (resize (clear v).1 0 g).reallocCalled = true ∧
    (resize (clear v).1 0 g).recorded =
      (if roundBytes v.m_size = 0 then none
       else some (0 - (roundBytes v.m_size : Int))) := by
  have hc : (clear v).1 = { v with m_data := none } := rfl
  rw [hc]
  unfold resize
  dsimp only
  rw [if_pos (Or.inr rfl)]
  refine ⟨rfl, rfl, rfl, ?_⟩
  rw [roundBytes_zero]
  by_cases h : roundBytes v.m_size = 0 <;> simp [h]

/-- C3: when `resize(v, L)` reallocates, the bytes actually allocated equal
the bit-length rounded up to the next 64-bit word plus one extra reserved
word exactly when `L` is a multiple of 64 (the allocation holds
`roundBytes L + 8` bytes iff `64 ∣ L`, else `roundBytes L`), and every
padding bit from the new logical end `L` up to the end of the allocation is
zero — regardless of what garbage the reallocation exposed.  In particular
after `resize(v, 64)` word index 1 is zero and after `resize(v, 65)` bits
65..127 are zero. -/
theorem C3_resize_allocation_and_padding (v : IntVec) (L : Nat) (g : Nat → Nat)
    (hL : L + 64 < 2 ^ 64)
    (hb : roundBytes v.m_size ≠ roundBytes L ∨ v.m_data = none) :
    ((resize v L g).v.m_data.getD []).length * 8 =
      roundBytes L + (if L % 64 = 0 then 8 else 0) ∧
    ∀ j, L ≤ j → j < ((resize v L g).v.m_data.getD []).length * 64 →
      bitAt ((resize v L g).v.m_data.getD []) j = false := by
  have hdata := resize_data_of_branch v L g hb
  have hwords := allocWords_eq L hL
  have hlen : ((resize v L g).v.m_data.getD []).length = L / 64 + 1 := by
    rw [hdata]
    simp only [Option.getD_some]
    rw [length_zeroFillStep2, length_zeroFillStep1, length_reallocWords, hwords]
  constructor
  · rw [hlen, roundBytes_eq L (by omega)]
    by_cases hr : L % 64 = 0 <;> simp [hr] <;> omega
  · intro j hj1 hj2
    rw [hlen] at hj2
    rw [hdata]
    simp only [Option.getD_some]
    apply zeroFill_padding_bits
    · rw [length_reallocWords, hwords]
    · exact hL
    · exact hj1
    · exact hj2

theorem C3_resize_allocation_and_padding_witness :
    ((resize ⟨0, none⟩ 65 (fun _ => 2 ^ 64 - 1)).v.m_data.getD []).length * 8 =
      roundBytes 65 + (if 65 % 64 = 0 then 8 else 0) ∧
    bitAt ((resize ⟨0, none⟩ 65 (fun _ => 2 ^ 64 - 1)).v.m_data.getD []) 100 = false := by
  have h := C3_resize_allocation_and_padding ⟨0, none⟩ 65 (fun _ => 2 ^ 64 - 1)
    (by norm_num) (Or.inr rfl)
  exact ⟨h.1, h.2 100 (by norm_num) (by decide)⟩

/-- C4: calling `resize(v, L)` twice in a row makes the second call perform
no reallocation and report no usage delta (it leaves the vector untouched);
and in general `resize` runs its reallocation branch exactly when the
rounded byte capacity changes or the vector has no storage. -/
theorem C4_resize_idempotent (v : IntVec) (L : Nat) (g1 g2 : Nat → Nat) :
    ((resize (resize v L g1).v L g2).reallocCalled = false ∧
     (resize (resize v L g1).v L g2).recorded = none ∧
     (resize (resize v L g1).v L g2).v = (resize v L g1).v) ∧
    (∀ (w : IntVec) (g : Nat → Nat),
      (resize w L g).reallocCalled = true ↔
        (roundBytes w.m_size ≠ roundBytes L ∨ w.m_data = none)) := by
  constructor
  · have hsize : (resize v L g1).v.m_size = L := resize_m_size v L g1
    have hdata : (resize v L g1).v.m_data ≠ none := resize_m_data_ne_none v L g1
    have hcond : ¬ (roundBytes (resize v L g1).v.m_size ≠ roundBytes L ∨
        (resize v L g1).v.m_data = none) := by
      push_neg
      exact ⟨by rw [hsize], hdata⟩
    have heq := resize_of_not_branch (resize v L g1).v L g2 hcond
    refine ⟨by rw [heq], by rw [heq], ?_⟩
    rw [heq]
    exact IntVec.set_size_eta _ L hsize
  · intro w g
    unfold resize
    dsimp only
    split
    · rename_i h
      simpa using h
    · rename_i h
      simpa using h

/-- C2 (counterexample): popping event "B" (final sample at the current
cumulative usage 1500) while "A"'s own last sample carries usage 1000 makes
the destructor append the synthetic sample to "A" with usage 1000 — the new
top's own previous usage — not 1500, contradicting the claim that the
synthetic sample carries the same usage value as the popped event's final
sample. -/
theorem C2_counterexample :
    c2state.current_usage = 1500 ∧
    (pop_event c2state 4).completed_events =
      [⟨"B", [⟨3, 1500⟩, ⟨4, 1500⟩]⟩] ∧
    (pop_event c2state 4).event_stack =
      [⟨"A", [⟨1, 1000⟩, ⟨4, 1000⟩]⟩] ∧
    ((1000 : Int) ≠ (1500 : Int)) := by
  refine ⟨rfl, ?_, ?_, by decide⟩ <;> decide

/-- C2 (amended): popping a scoped profiler event appends a final sample to
the popped event at the current cumulative usage, moves it to
`completed_events`, and, when the stack is still non-empty (and the new top
has at least one sample), appends a synthetic sample to the new top event at
the new top's own last recorded usage value — not necessarily the popped
event's final usage — and the current time. -/
theorem C2_pop_event_behaviour (m : Monitor) (t : Nat) (c t2 : MMEvent)
    (rest : List MMEvent) (lastA : MMAlloc)
    (hs : m.event_stack = c :: t2 :: rest)
    (hl : t2.allocations.getLast? = some lastA) :
    (pop_event m t).completed_events =
      m.completed_events ++
        [{ c with allocations := c.allocations ++ [⟨t, m.current_usage⟩] }] ∧
    (pop_event m t).event_stack =
      { t2 with allocations := t2.allocations ++ [⟨t, lastA.usage⟩] } :: rest := by
  rw [pop_event_eq_some m t c t2 rest lastA hs hl]
  exact ⟨rfl, rfl⟩

theorem C2_pop_event_behaviour_witness :
    (pop_event c2state 4).completed_events =
      [⟨"B", [⟨3, 1500⟩, ⟨4, 1500⟩]⟩] ∧
    (pop_event c2state 4).event_stack =
      [⟨"A", [⟨1, 1000⟩, ⟨4, 1000⟩]⟩] :=
  C2_pop_event_behaviour c2state 4 ⟨"B", [⟨3, 1500⟩]⟩ ⟨"A", [⟨1, 1000⟩]⟩ []
    ⟨1, 1000⟩ rfl rfl

/-- C5 (counterexample): with granularity 20, `last_event = 0` and a call at
time 20, exactly the granularity — not less — has elapsed, so the claim
demands two appended samples (three in total); the code instead overwrites
the single existing sample in place, leaving exactly one sample. -/
theorem C5_counterexample :
    ¬ (20 - c5state.last_event < c5state.log_granularity) ∧
    c5state.event_stack.map (fun e => e.allocations.length) = [1] ∧
    (record c5state 5 20).event_stack.map (fun e => e.allocations.length) = [1] := by
  refine ⟨by decide, by decide, by decide⟩

/-- C5 (amended): for `record(delta)` while tracking with a non-empty event
stack: if at most `log_granularity` has elapsed since `last_event` (i.e.
unless strictly more has elapsed) the most recent sample of the top event is
overwritten in place with the new time and post-delta usage (provided the
top event has at least one sample); otherwise two new samples are appended,
the first at the pre-delta and the second at the post-delta cumulative
usage, both at the current time. -/
theorem C5_record_behaviour (m : Monitor) (delta : Int) (cur : Nat)
    (top : MMEvent) (rest : List MMEvent)
    (ht : m.track_usage = true) (hs : m.event_stack = top :: rest) :
    (m.last_event + m.log_granularity < cur →
       record m delta cur =
         { m with
           event_stack :=
             { top with allocations :=
                 top.allocations ++
                   [⟨cur, m.current_usage⟩, ⟨cur, m.current_usage + delta⟩] } :: rest,
           current_usage := m.current_usage + delta,
           last_event := cur }) ∧
    (¬ (m.last_event + m.log_granularity < cur) → top.allocations ≠ [] →
       record m delta cur =
         { m with
           event_stack :=
             { top with allocations :=
                 top.allocations.dropLast ++ [⟨cur, m.current_usage + delta⟩] } :: rest,
           current_usage := m.current_usage + delta }) :=
  ⟨fun h1 => record_eq_append m delta cur top rest ht hs h1,
   fun h1 hne => record_eq_overwrite m delta cur top rest ht hs h1 hne⟩

theorem C5_record_behaviour_witness :
    record c5state 5 21 =
      { c5state with
        event_stack := [⟨"unknown", [⟨0, 0⟩, ⟨21, 0⟩, ⟨21, 5⟩]⟩],
        current_usage := 5,
        last_event := 21 } :=
  (C5_record_behaviour c5state 5 21 ⟨"unknown", [⟨0, 0⟩]⟩ [] rfl rfl).1 (by decide)

/-- C6: whenever tracking is active, the event stack is non-empty and its
bottom element is the sentinel root event named "unknown": `start()`
establishes it, and it is preserved by every sequence of scoped-event
pushes and pops (and `record` calls) in which pops never outnumber the
available pushes — the only shapes C++ scoped proxies can produce. -/
theorem C6_sentinel_invariant (m0 : Monitor) (t : Nat) (ops : List ProfilerOp)
    (h : balanced 0 ops = true) :
    (runOps (start m0 t) ops).track_usage = true ∧
    (runOps (start m0 t) ops).event_stack ≠ [] ∧
    stackBottomName (runOps (start m0 t) ops).event_stack = some "unknown" := by
  have h1 : (start m0 t).track_usage = true := rfl
  have h2 : (start m0 t).event_stack.length = 0 + 1 := rfl
  obtain ⟨ta, tb, tc⟩ := runOps_keeps_sentinel ops 0 (start m0 t) h1 h2 h
  exact ⟨ta, tb, by rw [tc]; rfl⟩

theorem C6_sentinel_invariant_witness :
    (runOps (start initMonitor 0)
      [.push "A" 1, .note 5 2, .push "B" 3, .pop 4, .pop 5]).track_usage = true ∧
    (runOps (start initMonitor 0)
      [.push "A" 1, .note 5 2, .push "B" 3, .pop 4, .pop 5]).event_stack ≠ [] ∧
    stackBottomName (runOps (start initMonitor 0)
      [.push "A" 1, .note 5 2, .push "B" 3, .pop 4, .pop 5]).event_stack =
      some "unknown" :=
  C6_sentinel_invariant initMonitor 0
    [.push "A" 1, .note 5 2, .push "B" 3, .pop 4, .pop 5] (by decide)

/-- C8: an allocation request declined by the underlying provider surfaces
as an out-of-memory error to the immediate caller and is never retried:
`hugepage_allocator::init` raises out-of-memory when the OS mapping request
fails, issuing exactly one OS request, and `memory_manager::realloc_mem`
(hugepages disabled) raises out-of-memory when the platform realloc returns
null, leaving the original block unfreed. -/
theorem C8_allocation_failure_not_retried (a : HugepageState) (sz avail : Nat)
    (resp : List (Option Nat)) (insp : Bool) (mmres : ReallocOutcome)
    (ptr : Option Nat)
    (hOS : resp.headD none = none) :
    (hugepage_init a sz avail resp).1 = Except.error AllocError.outOfMemory ∧
    (hugepage_init a sz avail resp).2 = 1 ∧
    realloc_mem false insp mmres ptr none =
      ⟨Except.error AllocError.outOfMemory, false⟩ := by
  have h : hugepage_init a sz avail resp = (Except.error AllocError.outOfMemory, 1) := by
    unfold hugepage_init
    dsimp only
    rw [hOS]
  exact ⟨by rw [h], by rw [h], rfl⟩

theorem C8_allocation_failure_not_retried_witness :
    (hugepage_init ⟨none, none, none, 0⟩ 0 0 [none]).1 =
      Except.error AllocError.outOfMemory ∧
    (hugepage_init ⟨none, none, none, 0⟩ 0 0 [none]).2 = 1 ∧
    realloc_mem false false ⟨Except.ok none, false⟩ none none =
      ⟨Except.error AllocError.outOfMemory, false⟩ :=
  C8_allocation_failure_not_retried ⟨none, none, none, 0⟩ 0 0 [none] false
    ⟨Except.ok none, false⟩ none rfl

end SdslMM
